import Mathlib

/-!
Verification of the anomaly-detection rules of the korus personal-info
checker.  The rules live in `src/checkers/download_reason_checker.py`,
`src/checkers/login_checker.py` and `src/checkers/personal_file_checker.py`;
each rule takes one in-memory table (a list of rows) and returns a
filtered, re-sorted subset.  Tables are embedded as Lean lists of typed
rows; pandas timestamps are embedded as seconds (`Nat`), missing cells
(`NaN`) as `Option`, and a pandas index as `List.enum` positions.
-/

namespace Korus

/-- One row of the download-reason table (`개인정보 다운로드 사유 조회`):
`교번` (employee id), `접근일시` (access time, already parsed to an instant
by the ingestion adapter, embedded as seconds), `다운로드사유`
(justification, `none` = NaN) and `다운로드데이터수(건)` (record count,
`none` = NaN). -/
structure DRow where
  empId : String
  time : Nat
  reason : Option String
  cnt : Option Int
deriving DecidableEq, Repr

/-- One row of the login-history table (`사용자접속내역_Login내역`):
`신분번호` (employee id), `접근일시` (access time, seconds) and `IP`. -/
structure LRow where
  empId : String
  time : Nat
  ip : String
deriving DecidableEq, Repr

/-- One row of the personal-info access-log table (`개인정보 접속기록 조회`):
`교번`, `성명` (name), `접근일시`, `프로그램명` (program name),
`상세내용` (detail text, `none` = NaN) and `수행업무` (action type). -/
structure ARow where
  empId : String
  time : Nat
  name : String
  program : String
  detail : Option String
  job : String
deriving DecidableEq, Repr

/-! ### `sort_values([employee_id, timestamp])` -/

/-- Strict lexicographic character-code order on character lists, the
order pandas uses on string keys. -/
def charListLT : List Char → List Char → Bool
  | _, [] => false
  | [], _ :: _ => true
  | a :: as, b :: bs => decide (a < b) || (a == b && charListLT as bs)

/-- Strict lexicographic order on strings. -/
def strLTb (a b : String) : Bool := charListLT a.data b.data

/-- Non-strict lexicographic order on strings. -/
def strLEb (a b : String) : Bool := strLTb a b || a == b

/-- The sort order of pandas `groupby` keys (sorted ascending). -/
def strRel (a b : String) : Prop := strLEb a b = true

instance : DecidableRel strRel := fun a b =>
  inferInstanceAs (Decidable (strLEb a b = true))

def charListLT_trans : ∀ x y z : List Char,
    charListLT x y = true → charListLT y z = true → charListLT x z = true := by
  intro x
  induction x with
  | nil =>
    intro y z h1 h2
    cases z with
    | cons c cs => rfl
    | nil =>
      cases y with
      | nil => exact h1
      | cons b bs => exact h2
  | cons a as ih =>
    intro y z h1 h2
    cases y with
    | nil => simp [charListLT] at h1
    | cons b bs =>
      cases z with
      | nil => simp [charListLT] at h2
      | cons c cs =>
        simp only [charListLT, Bool.or_eq_true, Bool.and_eq_true,
          decide_eq_true_eq, beq_iff_eq] at h1 h2 ⊢
        rcases h1 with h1 | ⟨rfl, h1r⟩
        · rcases h2 with h2 | ⟨rfl, h2r⟩
          · exact Or.inl (lt_trans h1 h2)
          · exact Or.inl h1
        · rcases h2 with h2 | ⟨rfl, h2r⟩
          · exact Or.inl h2
          · exact Or.inr ⟨rfl, ih bs cs h1r h2r⟩

def charListLT_trichot : ∀ x y : List Char,
    charListLT x y = true ∨ x = y ∨ charListLT y x = true := by
  intro x
  induction x with
  | nil =>
    intro y
    cases y with
    | nil => exact Or.inr (Or.inl rfl)
    | cons b bs => exact Or.inl rfl
  | cons a as ih =>
    intro y
    cases y with
    | nil => exact Or.inr (Or.inr rfl)
    | cons b bs =>
      rcases lt_trichotomy a b with h | rfl | h
      · exact Or.inl (by simp [charListLT, h])
      · rcases ih bs with h2 | rfl | h2
        · exact Or.inl (by simp [charListLT, h2])
        · exact Or.inr (Or.inl rfl)
        · exact Or.inr (Or.inr (by simp [charListLT, h2]))
      · exact Or.inr (Or.inr (by simp [charListLT, h]))

/-- Lexicographic sort key used by every rule's final
`sort_values([<employee id column>, <access time column>])`. -/
def keyRel (a b : String × Nat) : Prop :=
  strLTb a.1 b.1 = true ∨ (a.1 = b.1 ∧ a.2 ≤ b.2)

instance : DecidableRel keyRel := fun a b =>
  inferInstanceAs (Decidable (strLTb a.1 b.1 = true ∨ (a.1 = b.1 ∧ a.2 ≤ b.2)))

def keyRel_trans (a b c : String × Nat) (h1 : keyRel a b) (h2 : keyRel b c) :
    keyRel a c := by
  rcases h1 with h1 | ⟨h1, h1t⟩ <;> rcases h2 with h2 | ⟨h2, h2t⟩
  · exact Or.inl (charListLT_trans _ _ _ h1 h2)
  · exact Or.inl (h2 ▸ h1)
  · exact Or.inl (h1 ▸ h2)
  · exact Or.inr ⟨h1.trans h2, le_trans h1t h2t⟩

def keyRel_total (a b : String × Nat) : keyRel a b ∨ keyRel b a := by
  rcases charListLT_trichot a.1.data b.1.data with h | h | h
  · exact Or.inl (Or.inl h)
  · have hs : a.1 = b.1 := String.ext h
    rcases le_total a.2 b.2 with ht | ht
    · exact Or.inl (Or.inr ⟨hs, ht⟩)
    · exact Or.inr (Or.inr ⟨hs.symm, ht⟩)
  · exact Or.inr (Or.inl h)

/-- Sort order of the download-reason reports: `(교번, 접근일시)`. -/
def DRow.rel (a b : DRow) : Prop := keyRel (a.empId, a.time) (b.empId, b.time)

instance : DecidableRel DRow.rel := fun a b =>
  inferInstanceAs (Decidable (keyRel _ _))

instance : IsTrans DRow DRow.rel := ⟨fun _ _ _ => keyRel_trans _ _ _⟩

instance : IsTotal DRow DRow.rel := ⟨fun _ _ => keyRel_total _ _⟩

/-- Sort order of the login reports: `(신분번호, 접근일시)`. -/
def LRow.rel (a b : LRow) : Prop := keyRel (a.empId, a.time) (b.empId, b.time)

instance : DecidableRel LRow.rel := fun a b =>
  inferInstanceAs (Decidable (keyRel _ _))

instance : IsTrans LRow LRow.rel := ⟨fun _ _ _ => keyRel_trans _ _ _⟩

instance : IsTotal LRow LRow.rel := ⟨fun _ _ => keyRel_total _ _⟩

/-- Sort order of the access-log reports: `(교번, 접근일시)`. -/
def ARow.rel (a b : ARow) : Prop := keyRel (a.empId, a.time) (b.empId, b.time)

instance : DecidableRel ARow.rel := fun a b =>
  inferInstanceAs (Decidable (keyRel _ _))

instance : IsTrans ARow ARow.rel := ⟨fun _ _ _ => keyRel_trans _ _ _⟩

instance : IsTotal ARow ARow.rel := ⟨fun _ _ => keyRel_total _ _⟩

/-! ### Module-level configuration constants (from the Python sources) -/

def DOWNLOAD_COUNT_THRESHOLD : Int := 100
def DOWNLOAD_FREQUENCY_THRESHOLD : Nat := 20
def DOWNLOAD_OFF_HOURS_START : Nat := 23
def DOWNLOAD_OFF_HOURS_END : Nat := 8
def LOGIN_IP_SWITCH_MIN_IPS : Nat := 3
def LOGIN_OFF_HOURS_START : Nat := 23
def LOGIN_OFF_HOURS_END : Nat := 7
def VIEW_THRESHOLD : Nat := 1000
def SAVE_THRESHOLD : Nat := 100
def SHEET_NAME_MAX_CHARS : Nat := 31

/-- Embedding of `pd.Timedelta(hours=1)` in seconds, the window length of both
windowed rules. -/
def WINDOW : Nat := 3600

/-! ### Timestamp accessors (`Series.dt`) -/

/-- Accessor `.dt.hour` of an instant embedded as seconds. -/
def dt_hour (t : Nat) : Nat := t / 3600 % 24

/-- Accessor `.dt.weekday` (Monday = 0 … Sunday = 6); day 0 of the embedding
(1970-01-01) is a Thursday, weekday 3. -/
def dt_weekday (t : Nat) : Nat := (t / 86400 + 3) % 7

/-- Accessor `.dt.date` as a day ordinal. -/
def dt_date (t : Nat) : Nat := t / 86400

/-! ### Content heuristics (`download_reason_checker.py`, `personal_file_checker.py`) -/

/-- Heuristic `_unique_char_count_below_5`: `pd.isna(x)` yields `False`; otherwise
the number of distinct characters of `str(x)` is compared with 5. -/
def _unique_char_count_below_5 (x : Option String) : Bool :=
  match x with
  | none => false
  | some s => decide (s.data.dedup.length ≤ 5)

/-- Python's `in` on lists of characters: `prefixB a b` is
`b.startswith(a)`. -/
def prefixB : List Char → List Char → Bool
  | [], _ => true
  | _ :: _, [] => false
  | a :: as, b :: bs => a == b && prefixB as bs

/-- Python's substring containment `a in b`. -/
def substrB : List Char → List Char → Bool
  | a, [] => a.isEmpty
  | a, b :: bs => prefixB a (b :: bs) || substrB a bs

/-- Stringification `str(...)` of a possibly-missing cell: `str(nan)` is the
literal string `"nan"`. -/
def str_of_cell : Option String → String
  | none => "nan"
  | some s => s

/-! ### `download_reason_checker._check_download_sayu` -/

/-- Rows whose `다운로드사유` has at most five distinct characters,
sorted by `(교번, 접근일시)`. -/
def _check_download_sayu (df : List DRow) : List DRow :=
  (df.filter (fun r => _unique_char_count_below_5 r.reason)).insertionSort DRow.rel

/-! ### `download_reason_checker._filter_high_download_users` -/

/-- Aggregation `df.groupby(교번)[다운로드데이터수].sum()` for one employee:
pandas sums with `skipna=True`, so NaN cells are skipped. -/
def download_sum (df : List DRow) (e : String) : Int :=
  ((df.filter (fun r => r.empId == e)).filterMap (fun r => r.cnt)).sum

/-- Selection `target_users`: the (sorted, distinct) employee ids whose summed
download count reaches the threshold. -/
def high_download_target_users (thr : Int) (df : List DRow) : List String :=
  (((df.map (fun r => r.empId)).dedup).filter
      (fun e => decide (thr ≤ download_sum df e))).insertionSort strRel

/-- Rule `_filter_high_download_users` at an explicit threshold: all rows of
every employee whose sum reaches `thr`, sorted by `(교번, 접근일시)`. -/
def _filter_high_download_users_at (thr : Int) (df : List DRow) : List DRow :=
  (df.filter (fun r => decide (r.empId ∈ high_download_target_users thr df))).insertionSort
    DRow.rel

/-- Rule `_filter_high_download_users` with the module constant
`DOWNLOAD_COUNT_THRESHOLD = 100`. -/
def _filter_high_download_users (df : List DRow) : List DRow :=
  _filter_high_download_users_at DOWNLOAD_COUNT_THRESHOLD df

/-! ### The sliding-window scan shared by `_filter_high_freq_download`
and `_filter_ip_switch` -/

section WindowScan

variable {α : Type} (emp : α → String) (tm : α → Nat)

/-- The employee group of anchor `a` with rows in the closed window
`[tm a, tm a + WINDOW]`, at the value level (no pandas index). -/
def group_window (rows : List α) (e : String) (t0 : Nat) : List α :=
  rows.filter (fun x =>
    emp x == e && (decide (t0 ≤ tm x) && decide (tm x ≤ t0 + WINDOW)))

/-- The set of pandas indices collected by the nested loop: for every
anchor row `a` of the table, with `g` the anchor's employee group and
`w` the rows of `g` inside the anchor's closed one-hour window, if the
window qualifies every index of `w` is added (`flagged_indices.update`). -/
def flagged_indices (qual : List α → Bool) (idf : List (Nat × α)) : List Nat :=
  (idf.map (fun a =>
    let g := idf.filter (fun p => emp p.2 == emp a.2)
    let w := g.filter (fun p =>
      decide (tm a.2 ≤ tm p.2) && decide (tm p.2 ≤ tm a.2 + WINDOW))
    if qual (w.map (fun p => p.2)) then w.map (fun p => p.1) else [])).flatten

/-- The common body of the two windowed rules: enumerate the table with
its pandas index, collect the flagged index set, select the flagged rows
in index order (`df.loc[sorted(indices)]`) and re-sort by
`(employee id, access time)`. -/
def window_scan (rel : α → α → Prop) [DecidableRel rel]
    (qual : List α → Bool) (rows : List α) : List α :=
  let idf := rows.enum
  let fl := flagged_indices emp tm qual idf
  ((idf.filter (fun p => decide (p.1 ∈ fl))).map (fun p => p.2)).insertionSort rel

end WindowScan

/-- Rule `_filter_high_freq_download`: windows qualify when they hold at
least `DOWNLOAD_FREQUENCY_THRESHOLD = 20` rows. -/
def _filter_high_freq_download (df : List DRow) : List DRow :=
  window_scan DRow.empId DRow.time DRow.rel
    (fun w => decide (DOWNLOAD_FREQUENCY_THRESHOLD ≤ w.length)) df

/-- Rule `_filter_ip_switch` (`login_checker.py`): windows qualify when they
hold at least `LOGIN_IP_SWITCH_MIN_IPS = 3` distinct IP values
(`len(set(logins_in_window[COL_IP])) >= 3`). -/
def _filter_ip_switch (df : List LRow) : List LRow :=
  window_scan LRow.empId LRow.time LRow.rel
    (fun w => decide (LOGIN_IP_SWITCH_MIN_IPS ≤ ((w.map (fun r => r.ip)).dedup).length)) df

/-! ### Off-hours filters -/

/-- The off-hours mask `(hour < OFF_HOURS_END) | (hour >= OFF_HOURS_START)`
shared by `_filter_off_hour_and_holiday`, `_filter_off_hours` and
`utils.filter_by_time_conditions`. -/
def is_off_hour (startH endH h : Nat) : Bool :=
  decide (h < endH) || decide (startH ≤ h)

/-- Rule `login_checker._filter_off_hours` with `LOGIN_OFF_HOURS_START = 23`,
`LOGIN_OFF_HOURS_END = 7`. -/
def _filter_off_hours (df : List LRow) : List LRow :=
  (df.filter (fun r =>
    is_off_hour LOGIN_OFF_HOURS_START LOGIN_OFF_HOURS_END (dt_hour r.time))).insertionSort
    LRow.rel

/-- Rule `download_reason_checker._filter_off_hour_and_holiday`: off-hour
(start 23, end 8) OR weekend (`weekday >= 5`) OR public holiday.  The
holiday set `holidays.KR(years=...)` is an external library; it enters
as the date predicate `hol`. -/
def _filter_off_hour_and_holiday (hol : Nat → Bool) (df : List DRow) : List DRow :=
  (df.filter (fun r =>
    is_off_hour DOWNLOAD_OFF_HOURS_START DOWNLOAD_OFF_HOURS_END (dt_hour r.time)
      || decide (5 ≤ dt_weekday r.time) || hol (dt_date r.time))).insertionSort DRow.rel

/-! ### `personal_file_checker._filter_by_job_master_exclude_detail_id` -/

/-- Rows whose `프로그램명` equals the sentinel `"인사마스터"` and whose
`str(교번)` is not a substring of `str(상세내용)`, sorted by
`(교번, 접근일시)`. -/
def _filter_by_job_master_exclude_detail_id (df : List ARow) : List ARow :=
  let f1 := df.filter (fun r => r.program == "인사마스터")
  let f2 := f1.filter (fun r => ! substrB r.empId.data (str_of_cell r.detail).data)
  f2.insertionSort ARow.rel

/-! ### `personal_file_checker._extract_and_save_by_job` -/

/-- Count `job_specific_df.groupby(교번).size()` for one employee: the number
of the employee's rows whose `수행업무` equals `job`. -/
def job_counts (df : List ARow) (job : String) (e : String) : Nat :=
  ((df.filter (fun r => r.job == job)).filter (fun r => r.empId == e)).length

/-- Selection `target_user_ids`: the groupby keys (sorted distinct employee ids of
the job-filtered table) whose count reaches the threshold. -/
def target_user_ids (df : List ARow) (job : String) (thr : Nat) : List String :=
  ((((df.filter (fun r => r.job == job)).map (fun r => r.empId)).dedup).filter
      (fun e => decide (thr ≤ job_counts df job e))).insertionSort strRel

/-- Sheet contents `user_all_records_df`: every row of the employee, any action type. -/
def user_sheet (df : List ARow) (e : String) : List ARow :=
  df.filter (fun r => r.empId == e)

/-- Name `sheet_name = f"{employee_id}_{user_name}"`, truncated when longer
than `SHEET_NAME_MAX_CHARS = 31` characters; `user_name` is the `성명`
of the employee's first row (`""` for an empty selection). -/
def sheet_name (df : List ARow) (e : String) : String :=
  let nm := ((user_sheet df e).head?).elim "" (fun r => r.name)
  let s := e ++ "_" ++ nm
  if SHEET_NAME_MAX_CHARS < s.length then ⟨s.data.take SHEET_NAME_MAX_CHARS⟩ else s

/-- The pure content of `_extract_and_save_by_job`: one sheet
`(sheet name, all rows of the employee)` per selected employee id. -/
def _extract_and_save_by_job (df : List ARow) (job : String) (thr : Nat) :
    List (String × List ARow) :=
  (target_user_ids df job thr).map (fun e => (sheet_name df e, user_sheet df e))

/-! ### The raw (pre-`to_datetime`) download table, for the
malformed-value behaviour of `_filter_high_freq_download` -/

/-- A download-reason row whose `접근일시` cell has not yet been through
`pd.to_datetime`; `time = none` is a cell `to_datetime` cannot parse. -/
structure RawDRow where
  empId : String
  time : Option Nat
  reason : Option String
  cnt : Option Int
deriving DecidableEq, Repr

/-- Conversion `pd.to_datetime` on one row's cell. -/
def parse_time_row (r : RawDRow) : Option DRow :=
  r.time.map (fun t => ⟨r.empId, t, r.reason, r.cnt⟩)

/-- Column conversion `df_copy[접근일시] = pd.to_datetime(df_copy[접근일시])`: converting
the whole column raises (returns `none`) as soon as any cell fails to
parse; no row is dropped. -/
def to_datetime_col (df : List RawDRow) : Option (List DRow) :=
  match df with
  | [] => some []
  | r :: t =>
    match parse_time_row r, to_datetime_col t with
    | some d, some ds => some (d :: ds)
    | _, _ => none

/-- Rule `_filter_high_freq_download` on a raw table: the rule converts the
timestamp column first and therefore aborts on an unparseable cell. -/
def _filter_high_freq_download_raw (df : List RawDRow) : Option (List DRow) :=
  (to_datetime_col df).map _filter_high_freq_download

/-- Sum `download_sum` of a raw table: `_filter_high_download_users` never
parses timestamps, and its `groupby(...).sum()` skips NaN cells. -/
def download_sum_raw (df : List RawDRow) (e : String) : Int :=
  ((df.filter (fun r => r.empId == e)).filterMap (fun r => r.cnt)).sum

/-! ### Caller-visible state of the rules (`df.copy()` discipline) -/

/-- Order `RawDRow.rel` mirrors the final `sort_values` of
`_filter_high_download_users` on a raw table (NaT sorts last). -/
def RawDRow.rel (a b : RawDRow) : Prop :=
  keyRel (a.empId, a.time.getD (2 ^ 64)) (b.empId, b.time.getD (2 ^ 64))

instance : DecidableRel RawDRow.rel := fun a b =>
  inferInstanceAs (Decidable (keyRel _ _))

/-- Rule `_filter_high_download_users` on the raw table (it touches only the
`교번` and `다운로드데이터수` columns, never the timestamps). -/
def _filter_high_download_users_raw (df : List RawDRow) : List RawDRow :=
  (df.filter (fun r =>
    decide (r.empId ∈
      (((df.map (fun x => x.empId)).dedup).filter
          (fun e => decide (DOWNLOAD_COUNT_THRESHOLD ≤ download_sum_raw df e))).insertionSort
        (· ≤ ·)))).insertionSort RawDRow.rel

/-- Each rule body starts with `df_copy = df.copy()` and mutates only
the copy, so the caller's table binding after the call is the unchanged
input; the pair is `(returned result, caller's table after the call)`. -/
def run_filter_high_freq_download (df : List DRow) : List DRow × List DRow :=
  (_filter_high_freq_download df, df)

/-- Caller-visible effect of `_filter_ip_switch` (`df.copy()` before the
in-place timestamp conversion). -/
def run_filter_ip_switch (df : List LRow) : List LRow × List LRow :=
  (_filter_ip_switch df, df)

/-- Caller-visible effect of `_filter_by_job_master_exclude_detail_id`
(pure filtering, no in-place assignment at all). -/
def run_filter_by_job_master (df : List ARow) : List ARow × List ARow :=
  (_filter_by_job_master_exclude_detail_id df, df)

/-! ### Concrete tables for the spec's end-to-end scenarios -/

/-- Scenario table: 25 download events of employee `"E1"`, two minutes apart (48-minute
span), each with `record_count = 5` (sum 125). -/
def scenario25 : List DRow :=
  (List.range 25).map (fun i => ⟨"E1", 1000 + 120 * i, some "업무자료", some 5⟩)

/-- A download table with a missing (`NaN`) `다운로드데이터수` cell in
its middle row. -/
def badCountTable : List DRow :=
  [⟨"E1", 0, some "업무", some 60⟩, ⟨"E1", 10, some "업무", none⟩,
   ⟨"E1", 20, some "업무", some 50⟩]

/-- Table `badCountTable` with the missing cell replaced by an explicit `0`. -/
def zeroCountTable : List DRow :=
  [⟨"E1", 0, some "업무", some 60⟩, ⟨"E1", 10, some "업무", some 0⟩,
   ⟨"E1", 20, some "업무", some 50⟩]

/-! ### Helper lemmas -/

theorem prefixB_iff (a b : List Char) : prefixB a b = true ↔ ∃ t, b = a ++ t := by
  induction a generalizing b with
  | nil => simp [prefixB]
  | cons x xs ih =>
    cases b with
    | nil =>
      simp [prefixB]
    | cons y ys =>
      simp only [prefixB, Bool.and_eq_true, beq_iff_eq, ih, List.cons_append,
        List.cons.injEq]
      constructor
      · rintro ⟨rfl, t, rfl⟩
        exact ⟨t, rfl, rfl⟩
      · rintro ⟨t, rfl, rfl⟩
        exact ⟨rfl, t, rfl⟩

theorem substrB_iff (a b : List Char) :
    substrB a b = true ↔ ∃ p q, b = p ++ a ++ q := by
  induction b with
  | nil =>
    simp only [substrB, List.isEmpty_iff]
    constructor
    · rintro rfl
      exact ⟨[], [], rfl⟩
    · rintro ⟨p, q, h⟩
      rcases List.append_eq_nil.mp (List.append_eq_nil.mp h.symm).1 with ⟨-, h2⟩
      exact h2
  | cons y ys ih =>
    simp only [substrB, Bool.or_eq_true, prefixB_iff, ih]
    constructor
    · rintro (⟨t, ht⟩ | ⟨p, q, rfl⟩)
      · exact ⟨[], t, by simpa using ht⟩
      · exact ⟨y :: p, q, rfl⟩
    · rintro ⟨p, q, hpq⟩
      cases p with
      | nil => exact Or.inl ⟨q, by simpa using hpq⟩
      | cons z zs =>
        have h : y = z ∧ ys = zs ++ (a ++ q) := by simpa using hpq
        exact Or.inr ⟨zs, q, by rw [h.2, List.append_assoc]⟩

theorem mem_exists_enum {α : Type} (x : α) (l : List α) :
    x ∈ l ↔ ∃ i, (i, x) ∈ l.enum := by
  simp [List.mk_mem_enum_iff_getElem?, List.mem_iff_getElem?]

theorem enum_mem_snd {α : Type} {i : Nat} {x : α} {l : List α}
    (h : (i, x) ∈ l.enum) : x ∈ l :=
  (mem_exists_enum x l).mpr ⟨i, h⟩

theorem enum_snd_unique {α : Type} {i : Nat} {x y : α} {l : List α}
    (hx : (i, x) ∈ l.enum) (hy : (i, y) ∈ l.enum) : x = y := by
  rw [List.mk_mem_enum_iff_getElem?] at hx hy
  exact Option.some.inj (hx.symm.trans hy)

theorem enumFrom_filter_snd {α : Type} (P : α → Bool) :
    ∀ (n : Nat) (l : List α),
      ((List.enumFrom n l).filter (fun p => P p.2)).map (fun p => p.2) = l.filter P := by
  intro n l
  induction l generalizing n with
  | nil => simp
  | cons a t ih =>
    simp only [List.enumFrom, List.filter_cons]
    by_cases h : P a <;> simp [h, ih]

theorem enum_filter_snd {α : Type} (P : α → Bool) (l : List α) :
    (l.enum.filter (fun p => P p.2)).map (fun p => p.2) = l.filter P :=
  enumFrom_filter_snd P 0 l

theorem enum_filter_filter_snd {α : Type} (P Q : α → Bool) (l : List α) :
    ((l.enum.filter (fun p => P p.2)).filter (fun p => Q p.2)).map (fun p => p.2)
      = l.filter (fun x => P x && Q x) := by
  have h1 : ((l.enum.filter fun p => Q p.2 && P p.2).map (fun p => p.2))
      = l.filter (fun x => Q x && P x) := enum_filter_snd (fun x => Q x && P x) l
  simp only [List.filter_filter]
  rw [h1]
  exact List.filter_congr (fun x _ => Bool.and_comm _ _)

section WindowScanLemmas

variable {α : Type} (emp : α → String) (tm : α → Nat)

theorem window_map_comp (a : α) (rows : List α) :
    ((rows.enum.filter (fun p => emp p.2 == emp a)).filter (fun p =>
        decide (tm a ≤ tm p.2) && decide (tm p.2 ≤ tm a + WINDOW))).map (fun p => p.2)
      = group_window emp tm rows (emp a) (tm a) :=
  enum_filter_filter_snd (fun x => emp x == emp a)
    (fun x => decide (tm a ≤ tm x) && decide (tm x ≤ tm a + WINDOW)) rows

theorem mem_flagged_indices (qual : List α → Bool) (rows : List α) (i : Nat) :
    i ∈ flagged_indices emp tm qual rows.enum ↔
      ∃ a, a ∈ rows ∧ qual (group_window emp tm rows (emp a) (tm a)) = true ∧
        ∃ x, (i, x) ∈ rows.enum ∧ emp x = emp a ∧ tm a ≤ tm x ∧
          tm x ≤ tm a + WINDOW := by
  simp only [flagged_indices, List.mem_flatten, List.mem_map,
    exists_exists_and_eq_and, List.mem_ite_nil_right]
  constructor
  · rintro ⟨p, hp, hq, hi⟩
    obtain ⟨w, hw, hwi⟩ := hi
    simp only [List.mem_filter, Bool.and_eq_true, decide_eq_true_eq,
      beq_iff_eq] at hw
    obtain ⟨⟨hwenum, hwemp⟩, hw1, hw2⟩ := hw
    rw [window_map_comp emp tm p.2 rows] at hq
    refine ⟨p.2, enum_mem_snd (show (p.1, p.2) ∈ rows.enum from hp), hq, w.2,
      ?_, hwemp, hw1, hw2⟩
    have hmem : (w.1, w.2) ∈ rows.enum := hwenum
    rwa [hwi] at hmem
  · rintro ⟨a, haR, hq, x, hx, hxemp, hx1, hx2⟩
    obtain ⟨j, hj⟩ := (mem_exists_enum a rows).mp haR
    refine ⟨(j, a), hj, ?_, ?_⟩
    · rw [window_map_comp emp tm a rows]
      exact hq
    · refine ⟨(i, x), ?_, rfl⟩
      simp only [List.mem_filter, Bool.and_eq_true, decide_eq_true_eq, beq_iff_eq]
      exact ⟨⟨hx, hxemp⟩, hx1, hx2⟩

theorem mem_window_scan (rel : α → α → Prop) [DecidableRel rel]
    (qual : List α → Bool) (rows : List α) (r : α) :
    r ∈ window_scan emp tm rel qual rows ↔
      r ∈ rows ∧ ∃ a, a ∈ rows ∧ emp a = emp r ∧ tm a ≤ tm r ∧
        tm r ≤ tm a + WINDOW ∧
        qual (group_window emp tm rows (emp a) (tm a)) = true := by
  simp only [window_scan, List.mem_insertionSort, List.mem_map, List.mem_filter,
    decide_eq_true_eq]
  constructor
  · rintro ⟨⟨i, x⟩, ⟨hmem, hflag⟩, rfl⟩
    rw [mem_flagged_indices] at hflag
    obtain ⟨a, haR, hq, y, hy, hyemp, hy1, hy2⟩ := hflag
    have hxy : y = x := enum_snd_unique hy hmem
    subst hxy
    exact ⟨enum_mem_snd hmem, a, haR, hyemp.symm, hy1, hy2, hq⟩
  · rintro ⟨hr, a, haR, hemp, h1, h2, hq⟩
    obtain ⟨i, hi⟩ := (mem_exists_enum r rows).mp hr
    refine ⟨(i, r), ⟨hi, ?_⟩, rfl⟩
    rw [mem_flagged_indices]
    exact ⟨a, haR, hq, r, hi, hemp.symm, h1, h2⟩

/-- The output of a windowed rule is drawn from the input: the multiset
of returned rows is contained in the input table. -/
theorem count_window_scan_le [DecidableEq α] (rel : α → α → Prop) [DecidableRel rel]
    (qual : List α → Bool) (rows : List α) (r : α) :
    List.count r (window_scan emp tm rel qual rows) ≤ List.count r rows := by
  simp only [window_scan]
  have hperm := List.perm_insertionSort rel
    ((rows.enum.filter (fun p =>
      decide (p.1 ∈ flagged_indices emp tm qual rows.enum))).map (fun p => p.2))
  rw [hperm.count_eq r]
  have hsub : ((rows.enum.filter (fun p =>
      decide (p.1 ∈ flagged_indices emp tm qual rows.enum))).map
        (fun p => p.2)).Sublist rows := by
    have := (List.filter_sublist (p := fun p : Nat × α =>
      decide (p.1 ∈ flagged_indices emp tm qual rows.enum)) rows.enum).map
      (fun p : Nat × α => p.2)
    rwa [List.enum_map_snd] at this
  exact hsub.count_le r

end WindowScanLemmas

theorem sorted_window_scan {α : Type} (emp : α → String) (tm : α → Nat)
    (rel : α → α → Prop) [DecidableRel rel] [IsTotal α rel] [IsTrans α rel]
    (qual : List α → Bool) (rows : List α) :
    List.Sorted rel (window_scan emp tm rel qual rows) := by
  simp only [window_scan]
  exact List.sorted_insertionSort rel _

theorem mem_sort_filter {β : Type} (rel : β → β → Prop) [DecidableRel rel]
    (p : β → Bool) (df : List β) (r : β) :
    r ∈ (df.filter p).insertionSort rel ↔ r ∈ df ∧ p r = true := by
  rw [List.mem_insertionSort, List.mem_filter]

theorem count_sort_filter_le {β : Type} [DecidableEq β] (rel : β → β → Prop)
    [DecidableRel rel] (p : β → Bool) (df : List β) (r : β) :
    List.count r ((df.filter p).insertionSort rel) ≤ List.count r df := by
  rw [(List.perm_insertionSort rel (df.filter p)).count_eq r]
  exact (List.filter_sublist df).count_le r

theorem mem_filter_high_download_users_at (thr : Int) (df : List DRow) (r : DRow) :
    r ∈ _filter_high_download_users_at thr df ↔
      r ∈ df ∧ thr ≤ download_sum df r.empId := by
  simp only [_filter_high_download_users_at, List.mem_insertionSort,
    List.mem_filter, decide_eq_true_eq]
  constructor
  · rintro ⟨hr, hmem⟩
    simp only [high_download_target_users, List.mem_insertionSort,
      List.mem_filter, decide_eq_true_eq] at hmem
    exact ⟨hr, hmem.2⟩
  · rintro ⟨hr, hsum⟩
    refine ⟨hr, ?_⟩
    simp only [high_download_target_users, List.mem_insertionSort,
      List.mem_filter, decide_eq_true_eq, List.mem_dedup, List.mem_map]
    exact ⟨⟨r, hr, rfl⟩, hsum⟩

theorem mem_target_user_ids (df : List ARow) (job : String) (thr : Nat)
    (hthr : 1 ≤ thr) (e : String) :
    e ∈ target_user_ids df job thr ↔ thr ≤ job_counts df job e := by
  simp only [target_user_ids, List.mem_insertionSort, List.mem_filter,
    decide_eq_true_eq, List.mem_dedup, List.mem_map]
  constructor
  · rintro ⟨-, hc⟩
    exact hc
  · intro hc
    refine ⟨?_, hc⟩
    have hpos : 0 < job_counts df job e := lt_of_lt_of_le hthr hc
    rw [job_counts] at hpos
    obtain ⟨r, hr⟩ := List.exists_mem_of_length_pos hpos
    simp only [List.mem_filter] at hr
    exact ⟨r, hr.1, by simpa using hr.2⟩

theorem mem_filter_by_job_master (df : List ARow) (r : ARow) :
    r ∈ _filter_by_job_master_exclude_detail_id df ↔
      r ∈ df ∧ r.program = "인사마스터" ∧
        substrB r.empId.data (str_of_cell r.detail).data = false := by
  simp only [_filter_by_job_master_exclude_detail_id, List.mem_insertionSort,
    List.mem_filter, Bool.not_eq_true', beq_iff_eq]
  tauto

theorem unique_char_iff (x : Option String) :
    _unique_char_count_below_5 x = true ↔
      ∃ s, x = some s ∧ s.data.toFinset.card ≤ 5 := by
  cases x with
  | none => simp [_unique_char_count_below_5]
  | some s => simp [_unique_char_count_below_5, List.card_toFinset]

theorem sum_cnt_getD (l : List DRow) :
    (l.filterMap (fun r => r.cnt)).sum = (l.map (fun r => r.cnt.getD 0)).sum := by
  induction l with
  | nil => rfl
  | cons a t ih =>
    cases h : a.cnt with
    | none => simp [List.filterMap_cons, h, ih]
    | some v => simp [List.filterMap_cons, h, ih]

theorem to_datetime_col_none {df : List RawDRow} {r : RawDRow}
    (hr : r ∈ df) (ht : r.time = none) : to_datetime_col df = none := by
  induction df with
  | nil => cases hr
  | cons a t ih =>
    rcases List.mem_cons.mp hr with rfl | hmem
    · simp [to_datetime_col, parse_time_row, ht]
    · cases hpa : parse_time_row a with
      | none => simp [to_datetime_col, hpa]
      | some b =>
        have hrec : to_datetime_col t = none := ih hmem
        simp [to_datetime_col, hpa, hrec]

/-! ### The claims -/

/-- C1: for every table and every employee group, the two windowed rules
flag exactly the union, over every event taken as anchor, of the events
of the anchor's group whose timestamp lies in the closed window
`[t_a, t_a + 1h]`, for those anchors whose window qualifies (≥ 20 events
for the high-frequency rule, ≥ 3 distinct IPs for the IP-switch rule);
each event is counted once even when it lies in several qualifying
windows, and the output is re-sorted by `(employee_id, timestamp)`. -/
theorem C1_window_flagged_set_semantics :
    (∀ (df : List DRow) (r : DRow),
      (r ∈ _filter_high_freq_download df ↔
        r ∈ df ∧ ∃ a, a ∈ df ∧ a.empId = r.empId ∧ a.time ≤ r.time ∧
          r.time ≤ a.time + WINDOW ∧
          DOWNLOAD_FREQUENCY_THRESHOLD ≤
            (group_window DRow.empId DRow.time df a.empId a.time).length) ∧
      List.count r (_filter_high_freq_download df) ≤ List.count r df ∧
      List.Sorted DRow.rel (_filter_high_freq_download df)) ∧
    (∀ (df : List LRow) (r : LRow),
      (r ∈ _filter_ip_switch df ↔
        r ∈ df ∧ ∃ a, a ∈ df ∧ a.empId = r.empId ∧ a.time ≤ r.time ∧
          r.time ≤ a.time + WINDOW ∧
          LOGIN_IP_SWITCH_MIN_IPS ≤
            (((group_window LRow.empId LRow.time df a.empId a.time).map
              (fun x => x.ip)).dedup).length) ∧
      List.count r (_filter_ip_switch df) ≤ List.count r df ∧
      List.Sorted LRow.rel (_filter_ip_switch df)) := by
  constructor
  · intro df r
    refine ⟨?_, ?_, ?_⟩
    · simp only [_filter_high_freq_download]
      rw [mem_window_scan]
      simp only [decide_eq_true_eq]
    · exact count_window_scan_le _ _ _ _ df r
    · exact sorted_window_scan _ _ _ _ df
  · intro df r
    refine ⟨?_, ?_, ?_⟩
    · simp only [_filter_ip_switch]
      rw [mem_window_scan]
      simp only [decide_eq_true_eq]
    · exact count_window_scan_le _ _ _ _ df r
    · exact sorted_window_scan _ _ _ _ df

/-- C2: the sum-threshold rule returns exactly all events of every
employee whose summed `record_count` reaches the threshold 100, sorted
by `(employee_id, timestamp)`; 25 download events of one employee each
with `record_count = 5` (sum 125) are all returned. -/
theorem C2_sum_threshold_rule :
    (∀ (df : List DRow) (r : DRow),
      r ∈ _filter_high_download_users df ↔
        r ∈ df ∧ DOWNLOAD_COUNT_THRESHOLD ≤ download_sum df r.empId) ∧
    (∀ df : List DRow, List.Sorted DRow.rel (_filter_high_download_users df)) ∧
    download_sum scenario25 "E1" = 125 ∧
    _filter_high_download_users scenario25 = scenario25 ∧
    scenario25.length = 25 := by
  refine ⟨?_, ?_, by decide, by decide, by decide⟩
  · intro df r
    simp only [_filter_high_download_users]
    exact mem_filter_high_download_users_at _ df r
  · intro df
    simp only [_filter_high_download_users, _filter_high_download_users_at]
    exact List.sorted_insertionSort _ _

/-- C5: a justification is flagged iff it is non-null and has at most
five distinct characters; a missing justification is never flagged;
`"123123123123"` (3 distinct characters) is flagged and
`"need access for audit review Q3"` is not. -/
theorem C5_low_entropy_justification :
    (∀ (df : List DRow) (r : DRow),
      r ∈ _check_download_sayu df ↔
        r ∈ df ∧ ∃ s, r.reason = some s ∧ s.data.toFinset.card ≤ 5) ∧
    _unique_char_count_below_5 none = false ∧
    _unique_char_count_below_5 (some "123123123123") = true ∧
    ("123123123123" : String).data.toFinset.card = 3 ∧
    _unique_char_count_below_5 (some "need access for audit review Q3") = false := by
  refine ⟨?_, rfl, by decide, by decide, by decide⟩
  intro df r
  simp only [_check_download_sayu]
  rw [mem_sort_filter, unique_char_iff]

/-- C6: `is_off_hours` holds exactly when
`hour < off_hours_end ∨ off_hours_start ≤ hour` (the interval wraps past
midnight); with the download family's start 23 / end 8, hours 23 and 7
are off-hours while 8 and 22 are not, and with the login family's
start 23 / end 7, hour 7 is not off-hours. -/
theorem C6_off_hours_wrap_around :
    (∀ t : Nat,
      is_off_hour DOWNLOAD_OFF_HOURS_START DOWNLOAD_OFF_HOURS_END (dt_hour t) = true ↔
        (dt_hour t < DOWNLOAD_OFF_HOURS_END ∨
          DOWNLOAD_OFF_HOURS_START ≤ dt_hour t)) ∧
    (∀ (df : List LRow) (r : LRow),
      r ∈ _filter_off_hours df ↔
        r ∈ df ∧ (dt_hour r.time < LOGIN_OFF_HOURS_END ∨
          LOGIN_OFF_HOURS_START ≤ dt_hour r.time)) ∧
    (∀ (hol : Nat → Bool) (df : List DRow) (r : DRow),
      r ∈ _filter_off_hour_and_holiday hol df ↔
        r ∈ df ∧ ((dt_hour r.time < DOWNLOAD_OFF_HOURS_END ∨
            DOWNLOAD_OFF_HOURS_START ≤ dt_hour r.time) ∨
          5 ≤ dt_weekday r.time ∨ hol (dt_date r.time) = true)) ∧
    is_off_hour DOWNLOAD_OFF_HOURS_START DOWNLOAD_OFF_HOURS_END 23 = true ∧
    is_off_hour DOWNLOAD_OFF_HOURS_START DOWNLOAD_OFF_HOURS_END 7 = true ∧
    is_off_hour DOWNLOAD_OFF_HOURS_START DOWNLOAD_OFF_HOURS_END 8 = false ∧
    is_off_hour DOWNLOAD_OFF_HOURS_START DOWNLOAD_OFF_HOURS_END 22 = false ∧
    is_off_hour LOGIN_OFF_HOURS_START LOGIN_OFF_HOURS_END 7 = false := by
  refine ⟨?_, ?_, ?_, by decide, by decide, by decide, by decide, by decide⟩
  · intro t
    simp [is_off_hour]
  · intro df r
    simp only [_filter_off_hours]
    rw [mem_sort_filter]
    simp only [is_off_hour, Bool.or_eq_true, decide_eq_true_eq]
  · intro hol df r
    simp only [_filter_off_hour_and_holiday]
    rw [mem_sort_filter]
    simp only [is_off_hour, Bool.or_eq_true, decide_eq_true_eq]
    tauto

/-- C3: after restricting to rows whose action type equals the target,
grouping by employee id and counting, the rule selects exactly the
employee ids whose count reaches the threshold, and emits one sheet per
selected employee holding all of that employee's events of any action
type, with sheet name `"{employee_id}_{name}"` truncated to 31
characters. -/
theorem C3_count_threshold_by_action :
    ∀ (df : List ARow) (job : String) (thr : Nat), 1 ≤ thr →
      (∀ e, e ∈ target_user_ids df job thr ↔ thr ≤ job_counts df job e) ∧
      (∀ p, p ∈ _extract_and_save_by_job df job thr ↔
        ∃ e, e ∈ target_user_ids df job thr ∧
          p = (sheet_name df e, user_sheet df e)) ∧
      (∀ e r, r ∈ user_sheet df e ↔ r ∈ df ∧ r.empId = e) ∧
      (∀ e, (sheet_name df e).data =
        (e ++ "_" ++ ((user_sheet df e).head?).elim "" (fun x => x.name)).data.take
          SHEET_NAME_MAX_CHARS) ∧
      (∀ e, (sheet_name df e).length ≤ SHEET_NAME_MAX_CHARS) := by
  intro df job thr hthr
  refine ⟨fun e => mem_target_user_ids df job thr hthr e, ?_, ?_, ?_, ?_⟩
  · intro p
    simp only [_extract_and_save_by_job, List.mem_map]
    constructor
    · rintro ⟨e, he, rfl⟩
      exact ⟨e, he, rfl⟩
    · rintro ⟨e, he, rfl⟩
      exact ⟨e, he, rfl⟩
  · intro e r
    simp only [user_sheet, List.mem_filter, beq_iff_eq]
  · intro e
    simp only [sheet_name]
    by_cases h : SHEET_NAME_MAX_CHARS <
        (e ++ "_" ++ ((user_sheet df e).head?).elim "" (fun x => x.name)).length
    · rw [if_pos h]
    · rw [if_neg h]
      have hlen : (e ++ "_" ++
          ((user_sheet df e).head?).elim "" (fun x => x.name)).data.length ≤
            SHEET_NAME_MAX_CHARS := Nat.not_lt.mp h
      rw [List.take_of_length_le hlen]
  · intro e
    simp only [sheet_name]
    by_cases h : SHEET_NAME_MAX_CHARS <
        (e ++ "_" ++ ((user_sheet df e).head?).elim "" (fun x => x.name)).length
    · rw [if_pos h]
      show ((e ++ "_" ++ ((user_sheet df e).head?).elim ""
        (fun x => x.name)).data.take SHEET_NAME_MAX_CHARS).length ≤ SHEET_NAME_MAX_CHARS
      rw [List.length_take]
      exact inf_le_left
    · rw [if_neg h]
      exact Nat.not_lt.mp h

/-- C4: the HR-master rule returns exactly the rows whose program name
equals the sentinel `"인사마스터"` and whose employee-id string is not a
substring of the detail text, sorted by `(employee_id, timestamp)`;
`"emp123 viewed by emp123"` with employee id `"emp123"` is excluded
while an id absent from the detail text is retained. -/
theorem C4_self_lookup_exclusion :
    (∀ (df : List ARow) (r : ARow),
      (r ∈ _filter_by_job_master_exclude_detail_id df ↔
        r ∈ df ∧ r.program = "인사마스터" ∧
          substrB r.empId.data (str_of_cell r.detail).data = false) ∧
      List.Sorted ARow.rel (_filter_by_job_master_exclude_detail_id df)) ∧
    (∀ a b : String, substrB a.data b.data = true ↔
      ∃ p q, b.data = p ++ a.data ++ q) ∧
    substrB ("emp123" : String).data ("emp123 viewed by emp123" : String).data = true ∧
    _filter_by_job_master_exclude_detail_id
        [⟨"emp123", 0, "김", "인사마스터", some "emp123 viewed by emp123", "조회"⟩] = [] ∧
    _filter_by_job_master_exclude_detail_id
        [⟨"emp456", 0, "이", "인사마스터", some "emp123 viewed by emp123", "조회"⟩] =
      [⟨"emp456", 0, "이", "인사마스터", some "emp123 viewed by emp123", "조회"⟩] := by
  refine ⟨?_, ?_, by decide, by decide, by decide⟩
  · intro df r
    refine ⟨mem_filter_by_job_master df r, ?_⟩
    simp only [_filter_by_job_master_exclude_detail_id]
    exact List.sorted_insertionSort _ _
  · intro a b
    exact substrB_iff a.data b.data

/-- C7: raising the threshold never adds a selected employee and never
adds a returned event, for both the sum-threshold and the
count-threshold-by-action aggregation. -/
theorem C7_threshold_monotonicity :
    ∀ (ddf : List DRow) (adf : List ARow) (job : String) (t1 t2 : Int)
      (n1 n2 : Nat), t1 ≤ t2 → n1 ≤ n2 →
      (∀ e, e ∈ high_download_target_users t2 ddf →
        e ∈ high_download_target_users t1 ddf) ∧
      (∀ r, r ∈ _filter_high_download_users_at t2 ddf →
        r ∈ _filter_high_download_users_at t1 ddf) ∧
      (∀ e, e ∈ target_user_ids adf job n2 → e ∈ target_user_ids adf job n1) ∧
      (∀ p, p ∈ _extract_and_save_by_job adf job n2 →
        p ∈ _extract_and_save_by_job adf job n1) := by
  intro ddf adf job t1 t2 n1 n2 h12 hn12
  have hcnt : ∀ e, e ∈ target_user_ids adf job n2 →
      e ∈ target_user_ids adf job n1 := by
    intro e he
    simp only [target_user_ids, List.mem_insertionSort, List.mem_filter,
      decide_eq_true_eq] at he ⊢
    exact ⟨he.1, le_trans hn12 he.2⟩
  refine ⟨?_, ?_, hcnt, ?_⟩
  · intro e he
    simp only [high_download_target_users, List.mem_insertionSort,
      List.mem_filter, decide_eq_true_eq] at he ⊢
    exact ⟨he.1, le_trans h12 he.2⟩
  · intro r hr
    rw [mem_filter_high_download_users_at] at hr ⊢
    exact ⟨hr.1, le_trans h12 hr.2⟩
  · intro p hp
    simp only [_extract_and_save_by_job, List.mem_map] at hp ⊢
    obtain ⟨e, he, rfl⟩ := hp
    exact ⟨e, hcnt e he, rfl⟩

/-- C7 witness: at thresholds 1 ≤ 2 on a one-row table whose employee
sums to 5, the row returned at threshold 2 is also returned at
threshold 1. -/
theorem C7_threshold_monotonicity_witness :
    (⟨"E1", 0, some "업무", some 5⟩ : DRow) ∈
      _filter_high_download_users_at 1 [⟨"E1", 0, some "업무", some 5⟩] :=
  (C7_threshold_monotonicity [⟨"E1", 0, some "업무", some 5⟩] [] "조회" 1 2 1 2
      (by decide) (by decide)).2.1 ⟨"E1", 0, some "업무", some 5⟩ (by decide)

/-- C8 counterexample: a table whose middle row has a missing
`record_count` evaluates normally under the sum-threshold rule — the NaN
cell is skipped (sum 110, exactly as if it were 0) and every row of the
employee is returned; no error is raised for the malformed numeric
cell. -/
theorem C8_missing_count_not_fatal :
    download_sum badCountTable "E1" = 110 ∧
    download_sum zeroCountTable "E1" = 110 ∧
    _filter_high_download_users badCountTable = badCountTable ∧
    _filter_high_download_users zeroCountTable = zeroCountTable := by
  exact ⟨by decide, by decide, by decide, by decide⟩

/-- C8 (amended): a timestamp that cannot be parsed aborts the rule that
normalizes timestamps (`to_datetime` fails before any row is processed,
none is dropped), but the sum-threshold rule never fails on a missing
`record_count`: its groupby sum skips NaN cells, which is exactly the
sum obtained by treating the missing value as zero. -/
theorem C8_malformed_value_amended :
    (∀ df : List RawDRow, (∃ r, r ∈ df ∧ r.time = none) →
      _filter_high_freq_download_raw df = none) ∧
    (∀ (df : List DRow) (e : String),
      download_sum df e =
        ((df.filter (fun r => r.empId == e)).map (fun r => r.cnt.getD 0)).sum) := by
  constructor
  · rintro df ⟨r, hr, ht⟩
    simp only [_filter_high_freq_download_raw, to_datetime_col_none hr ht,
      Option.map_none']
  · intro df e
    simp only [download_sum]
    exact sum_cnt_getD _

/-- C8 witness: on a one-row table whose timestamp cell is unparseable,
the frequency rule aborts with an error rather than dropping the row. -/
theorem C8_malformed_value_amended_witness :
    _filter_high_freq_download_raw [⟨"E1", none, some "업무", some 1⟩] = none :=
  C8_malformed_value_amended.1 [⟨"E1", none, some "업무", some 1⟩]
    ⟨⟨"E1", none, some "업무", some 1⟩, by decide, rfl⟩

/-- C9: every rule leaves the caller's table unchanged (each body copies
the frame before its in-place timestamp conversion) and returns a
derived subset of the input rows: the multiset of returned rows is
contained in the input. -/
theorem C9_rule_purity_frame :
    (∀ df : List DRow, (run_filter_high_freq_download df).2 = df ∧
      ∀ r, List.count r (run_filter_high_freq_download df).1 ≤ List.count r df) ∧
    (∀ df : List LRow, (run_filter_ip_switch df).2 = df ∧
      ∀ r, List.count r (run_filter_ip_switch df).1 ≤ List.count r df) ∧
    (∀ df : List ARow, (run_filter_by_job_master df).2 = df ∧
      ∀ r, List.count r (run_filter_by_job_master df).1 ≤ List.count r df) ∧
    (∀ (df : List DRow) (r : DRow),
      List.count r (_check_download_sayu df) ≤ List.count r df) ∧
    (∀ (df : List DRow) (r : DRow),
      List.count r (_filter_high_download_users df) ≤ List.count r df) ∧
    (∀ (hol : Nat → Bool) (df : List DRow) (r : DRow),
      List.count r (_filter_off_hour_and_holiday hol df) ≤ List.count r df) ∧
    (∀ (df : List LRow) (r : LRow),
      List.count r (_filter_off_hours df) ≤ List.count r df) ∧
    (∀ (df : List ARow) (e : String) (r : ARow),
      List.count r (user_sheet df e) ≤ List.count r df) := by
  refine ⟨?_, ?_, ?_, ?_, ?_, ?_, ?_, ?_⟩
  · intro df
    exact ⟨rfl, fun r => count_window_scan_le _ _ _ _ df r⟩
  · intro df
    exact ⟨rfl, fun r => count_window_scan_le _ _ _ _ df r⟩
  · intro df
    refine ⟨rfl, fun r => ?_⟩
    show List.count r (_filter_by_job_master_exclude_detail_id df) ≤ List.count r df
    simp only [_filter_by_job_master_exclude_detail_id]
    rw [(List.perm_insertionSort _ _).count_eq r]
    exact ((List.filter_sublist _).trans (List.filter_sublist df)).count_le r
  · intro df r
    exact count_sort_filter_le DRow.rel
      (fun x => _unique_char_count_below_5 x.reason) df r
  · intro df r
    exact count_sort_filter_le DRow.rel
      (fun x => decide (x.empId ∈
        high_download_target_users DOWNLOAD_COUNT_THRESHOLD df)) df r
  · intro hol df r
    exact count_sort_filter_le DRow.rel
      (fun x => is_off_hour DOWNLOAD_OFF_HOURS_START DOWNLOAD_OFF_HOURS_END
          (dt_hour x.time) || decide (5 ≤ dt_weekday x.time) ||
        hol (dt_date x.time)) df r
  · intro df r
    exact count_sort_filter_le LRow.rel
      (fun x => is_off_hour LOGIN_OFF_HOURS_START LOGIN_OFF_HOURS_END
        (dt_hour x.time)) df r
  · intro df e r
    exact (List.filter_sublist df).count_le r

/-- C10: in the HR-master rule a missing detail cell is stringified to
the literal `"nan"`, so a sentinel-program row whose employee-id string
is not a substring of `"nan"` is never excluded as a self-lookup and is
retained. -/
theorem C10_missing_detail_compared_as_nan :
    ∀ (df : List ARow) (r : ARow), r ∈ df → r.detail = none →
      r.program = "인사마스터" →
      substrB r.empId.data ("nan" : String).data = false →
      str_of_cell r.detail = "nan" ∧
        r ∈ _filter_by_job_master_exclude_detail_id df := by
  intro df r hmem hdet hprog hsub
  refine ⟨by rw [hdet]; rfl, ?_⟩
  rw [mem_filter_by_job_master]
  refine ⟨hmem, hprog, ?_⟩
  rw [hdet]
  exact hsub

/-- C10 witness: a sentinel-program row with a missing detail cell and
employee id `"E9"` (not a substring of `"nan"`) is retained. -/
theorem C10_missing_detail_compared_as_nan_witness :
    (⟨"E9", 0, "김", "인사마스터", none, "조회"⟩ : ARow) ∈
      _filter_by_job_master_exclude_detail_id
        [⟨"E9", 0, "김", "인사마스터", none, "조회"⟩] :=
  (C10_missing_detail_compared_as_nan
      [⟨"E9", 0, "김", "인사마스터", none, "조회"⟩]
      ⟨"E9", 0, "김", "인사마스터", none, "조회"⟩
      (by decide) rfl rfl (by decide)).2

/-- C3 witness: with threshold 1 on a one-row table whose action type is
the target `"조회"`, the employee is selected. -/
theorem C3_count_threshold_by_action_witness :
    "E2" ∈ target_user_ids [⟨"E2", 5, "박", "학생관리", none, "조회"⟩] "조회" 1 :=
  ((C3_count_threshold_by_action [⟨"E2", 5, "박", "학생관리", none, "조회"⟩]
      "조회" 1 (by decide)).1 "E2").mpr (by decide)

end Korus
